import Mathlib

/-!
Verification of the roster reconciliation pipeline of `team_page`
(`src/team_page/process.py`, `src/team_page/models.py`) against its
natural-language specification.

The Python code is embedded shallowly:

* spreadsheet rows (`pandas` records after `rename`/`fillna("")`/`to_dict`)
  become `RawRow`, a structure of `Option String` fields where `none` means
  the column/key is absent from the record dictionary;
* `pydantic` URL validation (`AnyHttpUrl`) is modelled by the executable
  parser `parseHttpUrl` (an external collaborator of the repository; the
  claims only depend on "parses" vs "does not parse");
* network access (`requests.head` / `requests.get` / the Google-Drive
  session) is modelled by an oracle structure `Http` whose operations
  return `Except Unit HttpResponse`, with `.error ()` standing for a raised
  `requests.RequestException`;
* Python exceptions that cross function boundaries are modelled with
  `Except PyErr`;
* the iteration order of the Python set comprehension
  `{c.get("committee") for c in records if c.get("committee")}` in
  `create_databag` is unspecified (hash-seed dependent), so the embedding
  takes an explicit enumeration `e` of the distinct non-empty committee
  values; theorems quantify over every enumeration `e` that is a
  permutation of those values.

Python string primitives are re-implemented over `List Char` so that every
definition evaluates inside the kernel (`decide`/`rfl`).
-/

/-- Does `hay` start with `pat`?  (Python `str.startswith`.) -/
def charListBeginsWith : List Char → List Char → Bool
  | _, [] => true
  | [], _ :: _ => false
  | a :: hay, b :: pat => a = b && charListBeginsWith hay pat

/-- Does `needle` occur as a contiguous sublist of `hay`?
(Python `needle in hay` on strings; the empty needle always occurs.) -/
def charListHas : List Char → List Char → Bool
  | hay, needle =>
    charListBeginsWith hay needle ||
      match hay with
      | [] => false
      | _ :: t => charListHas t needle

/-- Split on a single-character separator, Python `str.split(sep)` style:
`"" ↦ [""]`, separators at the ends produce empty parts. -/
def splitOnChar (sep : Char) : List Char → List (List Char)
  | [] => [[]]
  | c :: cs =>
    let rest := splitOnChar sep cs
    if c = sep then [] :: rest
    else
      match rest with
      | [] => [[c]]
      | h :: t => (c :: h) :: t

/-- The segment after the last occurrence of `sep`
(Python `s.split(sep)[-1]` for a one-character separator). -/
def lastSegment (sep : Char) (l : List Char) : List Char :=
  (l.reverse.takeWhile (fun c => c ≠ sep)).reverse

/-- ASCII whitespace, the characters Python `str.strip()` removes that can
occur in spreadsheet cells. -/
def isPySpace (c : Char) : Bool :=
  c = ' ' || c = '\t' || c = '\n' || c = '\r'

/-- Python `str.strip()`. -/
def pyStrip (s : String) : String :=
  ⟨((s.data.dropWhile isPySpace).reverse.dropWhile isPySpace).reverse⟩

/-- Python `str.casefold`, modelled as ASCII lowercasing. -/
def pyCasefold (s : String) : String := ⟨s.data.map Char.toLower⟩

/-- Python `needle in hay` on strings. -/
def strContains (hay needle : String) : Bool := charListHas hay.data needle.data

/-- Python `str.startswith`. -/
def strBeginsWith (s pat : String) : Bool := charListBeginsWith s.data pat.data

/-- Python exceptions that cross function boundaries in `process.py`. -/
inductive PyErr where
  | keyError (key : String)
  | valueError (msg : String)
  | attributeError
deriving Repr, DecidableEq

/-- A parsed HTTP(S) URL, the shallow image of `pydantic.AnyHttpUrl`. -/
structure Url where
  scheme : String
  host : String
  path : String
  query : String
deriving Repr, DecidableEq

/-- Model of the external `pydantic.AnyHttpUrl` parser: accepts strings of
the form `http://host[/path][?query]` or `https://...` with a non-empty
host, and rejects everything else. -/
def parseHttpUrl (s : String) : Option Url :=
  let core :=
    if strBeginsWith s "http://" then some ("http", s.data.drop 7)
    else if strBeginsWith s "https://" then some ("https", s.data.drop 8)
    else none
  match core with
  | none => none
  | some (scheme, rest) =>
    let beforeQuery := rest.takeWhile (fun c => c ≠ '?')
    let queryPart := (rest.dropWhile (fun c => c ≠ '?')).drop 1
    let host := beforeQuery.takeWhile (fun c => c ≠ '/')
    let path := beforeQuery.dropWhile (fun c => c ≠ '/')
    if host.isEmpty then none
    else some { scheme := scheme, host := ⟨host⟩, path := ⟨path⟩, query := ⟨queryPart⟩ }

/-- Rendering of a `Url` back to a string (`str(url)` on an `AnyHttpUrl`);
only used as the key handed to the network oracle. -/
def urlToString (u : Url) : String :=
  u.scheme ++ "://" ++ u.host ++ u.path ++ (if u.query = "" then "" else "?" ++ u.query)

/-- `urllib.parse.parse_qs` restricted to what `download` uses: the list of
`k=v` pairs of the query string, dropping blank keys or values. -/
def queryParams (q : String) : List (String × String) :=
  (splitOnChar '&' q.data).filterMap (fun kv =>
    match splitOnChar '=' kv with
    | k :: v :: _ =>
      if k.isEmpty ∨ v.isEmpty then none else some (⟨k⟩, ⟨v⟩)
    | _ => none)

/-- One spreadsheet record as a Python dictionary
(`rename(columns=...)`/`fillna("")`/`to_dict(orient="records")`): `none`
models an absent key, `some ""` a blank cell. -/
structure RawRow where
  name : Option String := none
  ignore : Option String := none
  chair : Option String := none
  committee : Option String := none
  github : Option String := none
  linkedin : Option String := none
  website : Option String := none
  twitter : Option String := none
  bluesky : Option String := none
  mastodon : Option String := none
  image_url : Option String := none
deriving Repr, DecidableEq

/-- `models.TeamMember`.  `image_name` is declared `str = ""` in the
pydantic model but `create_databag` later assigns Python `None` to it
(assignment validation is off), so it is embedded as `Option String` with
constructor default `some ""`. -/
structure TeamMember where
  name : String
  role : String := ""
  committee : String := "other"
  image_name : Option String := some ""
  github : Option Url := none
  linkedin : Option Url := none
  website : Option Url := none
  twitter : Option Url := none
  bluesky : Option Url := none
  mastodon : Option Url := none
  image_url : Option Url := none
deriving Repr, DecidableEq

/-- `TeamMember.validate_url` (`models.py` lines 23-30): falsy input (the
empty string, from `fillna("")`) and parse failures all yield Python
`None`; otherwise the stripped string is parsed as an `AnyHttpUrl`. -/
def validate_url (value : String) : Option Url :=
  if value = "" then none else parseHttpUrl (pyStrip value)

/-- `models.Committee`. -/
structure Committee where
  name : String
  comment : String := ""
  members : List TeamMember
deriving Repr, DecidableEq

/-- `models.TeamDataBag`. -/
structure TeamDataBag where
  team_images : String
  default_image : String
  types : List Committee
deriving Repr, DecidableEq

/-- `TeamMember(**record)` as called on line 75 of `process.py`, after
`record["role"]` has been set on line 73.  `name` and `role` are passed as
the values already read from the record; the committee kwarg is the
record's value when the key is present (pydantic's `"other"` default
applies only when the key is absent); URL fields go through
`validate_url`. -/
def mkTeamMember (name role : String) (r : RawRow) : TeamMember :=
  { name := name
    role := role
    committee := r.committee.getD "other"
    image_name := some ""
    github := r.github.bind validate_url
    linkedin := r.linkedin.bind validate_url
    website := r.website.bind validate_url
    twitter := r.twitter.bind validate_url
    bluesky := r.bluesky.bind validate_url
    mastodon := r.mastodon.bind validate_url
    image_url := r.image_url.bind validate_url }

example : parseHttpUrl "https://example.com/photo.jpg" =
    some { scheme := "https", host := "example.com", path := "/photo.jpg", query := "" } := by
  decide

example : parseHttpUrl "not a url" = none := by decide
example : strContains "jane_doe.png" "jane_doe" = true := by decide
example : strContains "bob.png" "jane_doe" = false := by decide
example : pyCasefold "Yes" = "yes" := by decide
example : queryParams "export=download&id=abc" = [("export", "download"), ("id", "abc")] := by
  decide

/-- A network response as seen by `download`: the `Content-Type` header
(absent when the server sent none) and whether the status code is below
400 (`raise_for_status` succeeds). -/
structure HttpResponse where
  contentType : Option String
  statusOk : Bool
deriving Repr, DecidableEq

/-- The network oracle standing for the `requests` collaborator.  An
`.error ()` result models a raised `requests.RequestException`. -/
structure Http where
  head : String → Except Unit HttpResponse
  get : String → Except Unit HttpResponse
  sessionGet : String → Except Unit HttpResponse

/-- An oracle on which every network operation raises. -/
def noNet : Http :=
  { head := fun _ => .error ()
    get := fun _ => .error ()
    sessionGet := fun _ => .error () }

/-- `UpdateTeamPage.validate_content_type` (lines 129-136): a missing
`Content-Type` header hits `None.strip()` (`AttributeError`); an empty or
non-`image/` type raises `ValueError`; otherwise the extension is the part
after the last `/`. -/
def validateContentType (resp : HttpResponse) : Except PyErr String :=
  match resp.contentType with
  | none => .error .attributeError
  | some ct0 =>
    let ct := pyStrip ct0
    if ct = "" ∨ ¬ strBeginsWith ct "image/" then
      .error (.valueError "URL does not point to a valid image")
    else
      .ok ⟨lastSegment '/' ct.data⟩

/-- `UpdateTeamPage.download` (lines 138-172).  The inner `try` turns a
failing metadata probe into a `ValueError` that escapes `download` (only
`requests.RequestException` is caught by the outer handler); a
`RequestException` from the streaming GET is caught by the outer handler,
which logs and returns Python `None`.  File writing and `git add` are
assumed to succeed. -/
def download (http : Http) (u : Url) (normalizedName : String) :
    Except PyErr (Option String) :=
  if u.host = "drive.google.com" then
    match (queryParams u.query).lookup "id" with
    | none => .error (.keyError "id")
    | some _gid =>
      match http.sessionGet "https://docs.google.com/uc?export=download" with
      | .error _ => .ok none
      | .ok resp =>
        match validateContentType resp with
        | .error e => .error e
        | .ok ext => .ok (some (normalizedName ++ "." ++ ext))
  else
    match http.head (urlToString u) with
    | .error _ => .error (.valueError "Failed to fetch URL headers")
    | .ok resp =>
      if resp.statusOk = false then
        .error (.valueError "Failed to fetch URL headers")
      else
        match validateContentType resp with
        | .error e => .error e
        | .ok ext =>
          match http.get (urlToString u) with
          | .error _ => .ok none
          | .ok resp2 =>
            if resp2.statusOk = false then .ok none
            else .ok (some (normalizedName ++ "." ++ ext))

/-- `UpdateTeamPage.normalized_member_name` (lines 174-175). -/
def normalizedMemberName (name : String) : String :=
  pyCasefold ⟨name.data.map (fun c => if c = ' ' then '_' else c)⟩

/-- `url.path.split("/")[-1]`, the final path segment used by the
existing-file short-circuit on line 115. -/
def urlBasename (u : Url) : String := ⟨lastSegment '/' u.path.data⟩

/-- `UpdateTeamPage.download_member_image` (lines 111-127).  `imageDir` is
the list of file names in the image directory (`rglob("*")`).  The Python
code builds `image_in_place` from a set comprehension of casefolded names;
the embedding keeps directory order after `dedup` — every theorem below
depends only on which names match, never on which match is returned
first. -/
def downloadMemberImage (imageDir : List String) (http : Http)
    (member : TeamMember) : Except PyErr (Option String) :=
  match member.image_url with
  | none => .ok none
  | some u =>
    if imageDir.contains (urlBasename u) then .ok none
    else
      let normalizedName := normalizedMemberName member.name
      let imageInPlace :=
        ((imageDir.map pyCasefold).dedup).filter (fun x => strContains x normalizedName)
      match imageInPlace with
      | x :: _ => .ok (some x)
      | [] => download http u normalizedName

/-- The `except Exception` on line 78 of `create_databag`: any exception
escaping `download_member_image` becomes "no image". -/
def resolveImage (imageDir : List String) (http : Http) (member : TeamMember) :
    Option String :=
  match downloadMemberImage imageDir http member with
  | .ok v => v
  | .error _ => none

/-- `record["role"]` as computed on line 73. -/
def rowRole (chairValue : String) : String :=
  if pyCasefold chairValue = "yes" then "Chair" else ""

/-- Lines 75-82: construct the member, resolve its image, then clear
`image_url` and store the resolved file name. -/
def finalizeMember (imageDir : List String) (http : Http) (name role : String)
    (r : RawRow) : TeamMember :=
  let m := mkTeamMember name role r
  { m with image_url := none, image_name := resolveImage imageDir http m }

/-- `members[key].append(member)`: append to every bucket whose key
matches (the keys are distinct in every run, coming from a set). -/
def updateAppend (ms : List (String × List TeamMember)) (key : String)
    (m : TeamMember) : List (String × List TeamMember) :=
  ms.map (fun kv => if kv.1 = key then (kv.1, kv.2 ++ [m]) else kv)

/-- The record loop of `create_databag` (lines 69-86), threading the
`members` dictionary as an association list.  Lines 70, 71 and 73 index the
record directly, so an absent `name`/`ignore`/`chair` key raises a
`KeyError` past the loop.  Inside the `try`, a `key` that is not a bucket
of `members` raises a `KeyError` that the `except` on line 84 turns into
"skip this record". -/
def processRecords (imageDir : List String) (http : Http) :
    List RawRow → List (String × List TeamMember) →
    Except PyErr (List (String × List TeamMember))
  | [], ms => .ok ms
  | r :: rs, ms =>
    match r.name with
    | none => .error (.keyError "name")
    | some n =>
      match r.ignore with
      | none => .error (.keyError "ignore")
      | some ig =>
        if pyCasefold ig ≠ "yes" then processRecords imageDir http rs ms
        else
          match r.chair with
          | none => .error (.keyError "chair")
          | some ch =>
            let member := finalizeMember imageDir http n (rowRole ch) r
            let key := r.committee.getD "other"
            let ms' :=
              if (ms.map Prod.fst).contains key then updateAppend ms key member
              else ms
            processRecords imageDir http rs ms'

/-- The distinct non-empty committee values of the batch, in first-seen
order (the *membership* of the Python set
`{c.get("committee") for c in records if c.get("committee")}`; its
iteration order is unspecified and is supplied separately as `e`). -/
def firstSeen : List String → List String
  | [] => []
  | x :: xs => x :: (firstSeen xs).filter (fun y => y ≠ x)

def committeeKeys (records : List RawRow) : List String :=
  firstSeen ((records.filterMap (fun r => r.committee)).filter (fun s => s ≠ ""))

/-- The sort key `CONFIG["sort_order"].index(c.name)` ordering. -/
def leIdx (sortOrder : List String) (a b : Committee) : Prop :=
  sortOrder.indexOf a.name ≤ sortOrder.indexOf b.name

instance (so : List String) : DecidableRel (leIdx so) :=
  fun _ _ => Nat.decLe _ _

instance (so : List String) : IsTotal Committee (leIdx so) :=
  ⟨fun _ _ => Nat.le_total _ _⟩

instance (so : List String) : IsTrans Committee (leIdx so) :=
  ⟨fun _ _ _ => Nat.le_trans⟩

/-- `UpdateTeamPage.sort_committees` (lines 101-109).  Python `sorted` is a
stable ascending sort; every stable sort for a total preorder produces the
same list, so it is embedded as insertion sort. -/
def sortCommittees (sortOrder : List String) (committees : List Committee) :
    List Committee :=
  (committees.filter (fun c => sortOrder.contains c.name)).insertionSort (leIdx sortOrder)
    ++ committees.filter (fun c => ¬ sortOrder.contains c.name)

/-- `UpdateTeamPage.create_databag` (lines 60-99) from the point where the
records have been read: `e` is the iteration order of the committee-value
set, `ti`/`di` are `CONFIG["team_images"]`/`CONFIG["default_image"]`. -/
def createDatabag (sortOrder : List String) (ti di : String)
    (imageDir : List String) (http : Http) (records : List RawRow)
    (e : List String) : Except PyErr TeamDataBag :=
  match processRecords imageDir http records (e.map (fun k => (k, []))) with
  | .error err => .error err
  | .ok ms =>
    .ok { team_images := ti
          default_image := di
          types := sortCommittees sortOrder
            (ms.map (fun kv => { name := kv.1, comment := "", members := kv.2 })) }

/-- The repository state `apply_changes` inspects: whether the work tree
differs from HEAD (`is_dirty(untracked_files=True)`), the commit at the
head of the checked-out branch, and the commit at `origin/main`.  Commits
are identified by numbers. -/
structure RepoState where
  dirty : Bool
  localCommit : Nat
  remoteMainCommit : Nat
deriving Repr, DecidableEq

/-- What a run of `apply_changes` did: whether a commit was created, the
resulting branch head, the final `changes_to_push` flag, and whether
`git push` was invoked. -/
structure PublishResult where
  committed : Bool
  localCommit : Nat
  changes_to_push : Bool
  pushInvoked : Bool
deriving Repr, DecidableEq

/-- `UpdateTeamPage.apply_changes` (lines 182-213).  `newCommit` is the id
of the commit that `index.commit` would create when the tree is dirty.
The branch comparison on lines 195-203 overwrites `changes_to_push`
unconditionally: it becomes true iff the branch head differs from
`origin/main`, and `git push` runs exactly when it is true. -/
def applyChanges (s : RepoState) (newCommit : Nat) : PublishResult :=
  let localAfter := if s.dirty then newCommit else s.localCommit
  let c2p := localAfter ≠ s.remoteMainCommit
  { committed := s.dirty
    localCommit := localAfter
    changes_to_push := c2p
    pushInvoked := c2p }

/-- `UpdateTeamPage.pull_request` (lines 215-218) returns immediately,
contacting no collaborator, unless `changes_to_push` is set. -/
def prCheckInvoked (res : PublishResult) : Bool := res.changes_to_push

/-- Whether line 71 lets the record through: the `ignore` value (present in
every pandas record) casefolds to `"yes"`. -/
def rowAccepted (r : RawRow) : Bool :=
  decide (pyCasefold (r.ignore.getD "") = "yes")

/-- `record.get("committee", "other")`, the bucket key of line 83. -/
def rowKey (r : RawRow) : String := r.committee.getD "other"

/-- The keys that lines 70, 71 and 73 index directly are present.  Records
produced by `to_dict(orient="records")` always satisfy this: every record
carries every column. -/
def wfRow (r : RawRow) : Prop :=
  r.name.isSome ∧ r.ignore.isSome ∧ (rowAccepted r = true → r.chair.isSome)

instance (r : RawRow) : Decidable (wfRow r) := by
  unfold wfRow
  infer_instance

/-- The member a well-formed accepted record contributes. -/
def rowMember (imageDir : List String) (http : Http) (r : RawRow) : TeamMember :=
  finalizeMember imageDir http (r.name.getD "") (rowRole (r.chair.getD "")) r

/-- Characterization of the record loop on well-formed records: it never
raises, and each bucket receives, in row order, the members of the
accepted records whose key matches the bucket; records whose key matches
no bucket are dropped by the caught `KeyError`. -/
theorem processRecords_eq_ok (imageDir : List String) (http : Http)
    (rs : List RawRow) :
    ∀ ms : List (String × List TeamMember), (∀ r ∈ rs, wfRow r) →
    processRecords imageDir http rs ms =
      .ok (ms.map (fun kv => (kv.1, kv.2 ++
        ((rs.filter (fun r => rowAccepted r && decide (rowKey r = kv.1))).map
          (rowMember imageDir http))))) := by
  induction rs with
  | nil =>
    intro ms _
    simp [processRecords]
  | cons r rs ih =>
    intro ms hwf
    obtain ⟨hn0, hi0, hc0⟩ := hwf r (List.mem_cons_self r rs)
    obtain ⟨n, hn⟩ := Option.isSome_iff_exists.mp hn0
    obtain ⟨ig, hig⟩ := Option.isSome_iff_exists.mp hi0
    have hwf' : ∀ x ∈ rs, wfRow x := fun x hx => hwf x (List.mem_cons_of_mem r hx)
    by_cases hacc : pyCasefold ig = "yes"
    · have haccb : rowAccepted r = true := by
        simp [rowAccepted, hig, hacc]
      obtain ⟨ch, hch⟩ := Option.isSome_iff_exists.mp (hc0 haccb)
      have hrm : rowMember imageDir http r =
          finalizeMember imageDir http n (rowRole ch) r := by
        simp [rowMember, hn, hch]
      rw [processRecords]
      simp only [hn, hig, hch, if_neg (by simp [hacc] : ¬ pyCasefold ig ≠ "yes")]
      by_cases hkey : (ms.map Prod.fst).contains (rowKey r)
      · rw [if_pos (by simpa [rowKey] using hkey)]
        rw [ih _ hwf']
        unfold updateAppend
        rw [List.map_map]
        congr 1
        apply List.map_congr_left
        intro kv _
        have hk0 : r.committee.getD "other" = rowKey r := rfl
        simp only [Function.comp_apply, hk0]
        by_cases hk : kv.1 = rowKey r
        · rw [if_pos hk]
          simp [List.filter_cons, haccb, hk, hrm, List.append_assoc]
        · rw [if_neg hk]
          have hne : ¬ rowKey r = kv.1 := fun h => hk h.symm
          simp [List.filter_cons, haccb, hne]
      · rw [if_neg (by simpa [rowKey] using hkey)]
        rw [ih _ hwf']
        congr 1
        apply List.map_congr_left
        intro kv hkv
        have hne : ¬ rowKey r = kv.1 := by
          intro h
          exact hkey (by
            simp only [List.contains_iff_exists_mem_beq]
            exact ⟨kv.1, List.mem_map_of_mem Prod.fst hkv, by simp [h]⟩)
        simp [List.filter_cons, haccb, hne]
    · have haccb : rowAccepted r = false := by
        simp [rowAccepted, hig, hacc]
      rw [processRecords]
      simp only [hn, hig, if_pos (by simp [hacc] : pyCasefold ig ≠ "yes")]
      rw [ih _ hwf']
      congr 1
      apply List.map_congr_left
      intro kv _
      simp [List.filter_cons, haccb]

/-- The committee built from bucket `k` of the `members` dictionary: its
accepted matching records, in row order. -/
def bucket (imageDir : List String) (http : Http) (records : List RawRow)
    (k : String) : Committee :=
  { name := k, comment := "",
    members := (records.filter
      (fun r => rowAccepted r && decide (rowKey r = k))).map
        (rowMember imageDir http) }

/-- `create_databag` on well-formed records never raises: it yields the
committees in set-enumeration order, each holding the members of its
accepted records in row order, before the final sort. -/
theorem createDatabag_eq_ok (so : List String) (ti di : String)
    (imageDir : List String) (http : Http) (records : List RawRow)
    (e : List String) (hwf : ∀ r ∈ records, wfRow r) :
    createDatabag so ti di imageDir http records e =
      .ok { team_images := ti, default_image := di,
            types := sortCommittees so (e.map (bucket imageDir http records)) } := by
  unfold createDatabag
  rw [processRecords_eq_ok imageDir http records _ hwf]
  simp only [List.map_map]
  congr 2

/-- Every committee of the input list survives `sort_committees`. -/
theorem mem_sortCommittees {so : List String} {cs : List Committee}
    {c : Committee} (h : c ∈ cs) : c ∈ sortCommittees so cs := by
  unfold sortCommittees
  by_cases hc : so.contains c.name
  · refine List.mem_append_left _ ?_
    exact ((List.perm_insertionSort (leIdx so) _).mem_iff).mpr
      (List.mem_filter.mpr ⟨h, by simpa using hc⟩)
  · exact List.mem_append_right _ (List.mem_filter.mpr ⟨h, by simpa using hc⟩)

/-- All members of the published document, committee by committee. -/
def allMembers (bag : TeamDataBag) : List TeamMember :=
  (bag.types.map Committee.members).flatten

/-- A member sitting in the bucket of an enumerated committee ends up in
the published document. -/
theorem mem_allMembers_of_bucket {so : List String} {ti di : String}
    {imageDir : List String} {http : Http} {records : List RawRow}
    {e : List String} (hwf : ∀ r ∈ records, wfRow r) {k : String}
    (hk : k ∈ e) {m : TeamMember}
    (hm : m ∈ (bucket imageDir http records k).members)
    {bag : TeamDataBag}
    (hbag : createDatabag so ti di imageDir http records e = .ok bag) :
    m ∈ allMembers bag := by
  rw [createDatabag_eq_ok so ti di imageDir http records e hwf] at hbag
  cases hbag
  unfold allMembers
  rw [List.mem_flatten]
  exact ⟨(bucket imageDir http records k).members,
    List.mem_map_of_mem Committee.members
      (mem_sortCommittees (List.mem_map_of_mem _ hk)), hm⟩

/-- Completeness direction: everything in the published document comes
from an accepted record whose key was enumerated. -/
theorem mem_records_of_mem_allMembers {so : List String} {ti di : String}
    {imageDir : List String} {http : Http} {records : List RawRow}
    {e : List String} (hwf : ∀ r ∈ records, wfRow r) {bag : TeamDataBag}
    (hbag : createDatabag so ti di imageDir http records e = .ok bag)
    {m : TeamMember} (hm : m ∈ allMembers bag) :
    ∃ r ∈ records, rowAccepted r = true ∧ rowKey r ∈ e ∧
      m = rowMember imageDir http r := by
  rw [createDatabag_eq_ok so ti di imageDir http records e hwf] at hbag
  cases hbag
  unfold allMembers at hm
  rw [List.mem_flatten] at hm
  obtain ⟨l, hl, hml⟩ := hm
  rw [List.mem_map] at hl
  obtain ⟨c, hc, rfl⟩ := hl
  have hc' : c ∈ e.map (bucket imageDir http records) := by
    unfold sortCommittees at hc
    rcases List.mem_append.mp hc with h | h
    · exact (List.mem_filter.mp
        (((List.perm_insertionSort (leIdx so) _).mem_iff).mp h)).1
    · exact (List.mem_filter.mp h).1
  rw [List.mem_map] at hc'
  obtain ⟨k, hk, rfl⟩ := hc'
  simp only [bucket, List.mem_map, List.mem_filter] at hml
  obtain ⟨r, ⟨hr, hcond⟩, rfl⟩ := hml
  rw [Bool.and_eq_true, decide_eq_true_eq] at hcond
  exact ⟨r, hr, hcond.1, hcond.2 ▸ hk, rfl⟩

/-- A network oracle whose probe reports a JPEG image and whose GET
succeeds. -/
def okJpeg : Http :=
  { head := fun _ => .ok { contentType := some "image/jpeg", statusOk := true }
    get := fun _ => .ok { contentType := some "image/jpeg", statusOk := true }
    sessionGet := fun _ => .ok { contentType := some "image/jpeg", statusOk := true } }

/-- A network oracle whose probe reports an HTML page. -/
def htmlNet : Http :=
  { head := fun _ => .ok { contentType := some "text/html", statusOk := true }
    get := fun _ => .ok { contentType := some "text/html", statusOk := true }
    sessionGet := fun _ => .ok { contentType := some "text/html", statusOk := true } }

def rowJane : RawRow :=
  { name := some "Jane Doe", ignore := some "yes", chair := some "yes",
    committee := some "Board", image_url := some "https://example.com/photo.jpg" }

def janeMember : TeamMember :=
  { name := "Jane Doe", role := "Chair", committee := "Board",
    image_name := some "jane_doe.jpeg" }

def janeCommittee : Committee :=
  { name := "Board", comment := "", members := [janeMember] }

def janeBag : TeamDataBag :=
  { team_images := "images", default_image := "default.png", types := [janeCommittee] }

example :
    createDatabag ["Board"] "images" "default.png" [] okJpeg [rowJane] ["Board"] =
      .ok janeBag := rfl

/-- C9: in every published document every member's remote image URL has
been cleared (`member.image_url = None` on line 81), whatever the outcome
of image resolution was. -/
theorem c9_image_url_cleared (so : List String) (ti di : String)
    (imageDir : List String) (http : Http) (records : List RawRow)
    (e : List String) (bag : TeamDataBag)
    (hwf : ∀ r ∈ records, wfRow r)
    (hbag : createDatabag so ti di imageDir http records e = .ok bag) :
    ∀ c ∈ bag.types, ∀ m ∈ c.members, m.image_url = none := by
  intro c hc m hm
  have hma : m ∈ allMembers bag := by
    unfold allMembers
    rw [List.mem_flatten]
    exact ⟨c.members, List.mem_map_of_mem Committee.members hc, hm⟩
  obtain ⟨r, _, _, _, rfl⟩ := mem_records_of_mem_allMembers hwf hbag hma
  rfl

/-- Closed instance of `c9_image_url_cleared`: Jane Doe's record carries a
remote image URL, the published member does not. -/
theorem c9_witness : janeMember.image_url = none :=
  c9_image_url_cleared ["Board"] "images" "default.png" [] okJpeg [rowJane]
    ["Board"] janeBag (by decide) rfl janeCommittee (by decide) janeMember
    (by decide)

def rowJaneBasename : RawRow :=
  { name := some "Jane Doe", ignore := some "yes", chair := some "no",
    committee := some "Board", image_url := some "https://example.com/jane_doe.png" }

def janeNoImageMember : TeamMember :=
  { name := "Jane Doe", role := "", committee := "Board", image_name := none }

def janeNoImageBag : TeamDataBag :=
  { team_images := "images", default_image := "default.png",
    types := [{ name := "Board", comment := "", members := [janeNoImageMember] }] }

/-- C10: when a file named like the final path segment of the member's
image URL already exists in the image directory, `download_member_image`
returns Python `None` before the normalized-key check ever runs (lines
114-117), so the member is published with `image_name = None` even though
a matching image file sits in the directory. -/
theorem c10_basename_short_circuit (so : List String) (ti di : String)
    (imageDir : List String) (http : Http) (records : List RawRow)
    (e : List String) (r : RawRow) (bag : TeamDataBag) (u : Url) (v : String)
    (hwf : ∀ x ∈ records, wfRow x) (hr : r ∈ records)
    (hacc : rowAccepted r = true) (hkey : rowKey r ∈ e)
    (hv : r.image_url = some v) (hu : validate_url v = some u)
    (hbase : imageDir.contains (urlBasename u) = true)
    (hbag : createDatabag so ti di imageDir http records e = .ok bag) :
    downloadMemberImage imageDir http
      (mkTeamMember (r.name.getD "") (rowRole (r.chair.getD "")) r) = .ok none
    ∧ (rowMember imageDir http r).image_name = none
    ∧ rowMember imageDir http r ∈ allMembers bag := by
  have himg : (mkTeamMember (r.name.getD "") (rowRole (r.chair.getD "")) r).image_url
      = some u := by
    simp [mkTeamMember, hv, hu]
  have hbase' : urlBasename u ∈ imageDir := by simpa using hbase
  refine ⟨?_, ?_, ?_⟩
  · simp [downloadMemberImage, himg, hbase']
  · simp [rowMember, finalizeMember, resolveImage, downloadMemberImage, himg, hbase']
  · exact mem_allMembers_of_bucket hwf hkey
      (List.mem_map_of_mem _ (List.mem_filter.mpr ⟨hr, by simp [hacc]⟩)) hbag

/-- Closed instance of `c10_basename_short_circuit`: `jane_doe.png` exists
and is the basename of Jane Doe's image URL, yet the published member has
no `image_name`. -/
theorem c10_witness :
    downloadMemberImage ["jane_doe.png"] noNet
      (mkTeamMember (rowJaneBasename.name.getD "")
        (rowRole (rowJaneBasename.chair.getD "")) rowJaneBasename) = .ok none
    ∧ (rowMember ["jane_doe.png"] noNet rowJaneBasename).image_name = none
    ∧ rowMember ["jane_doe.png"] noNet rowJaneBasename ∈ allMembers janeNoImageBag :=
  c10_basename_short_circuit ["Board"] "images" "default.png" ["jane_doe.png"]
    noNet [rowJaneBasename] ["Board"] rowJaneBasename janeNoImageBag
    { scheme := "https", host := "example.com", path := "/jane_doe.png", query := "" }
    "https://example.com/jane_doe.png"
    (by decide) (by decide) (by decide) (by decide) rfl rfl (by decide) rfl

/-- Both branches of `validate_url` yield `None` when the stripped value
does not parse. -/
theorem validate_url_eq_none {v : String} (h : parseHttpUrl (pyStrip v) = none) :
    validate_url v = none := by
  unfold validate_url
  by_cases hv : v = ""
  · rw [if_pos hv]
  · rw [if_neg hv]
    exact h

def rowBadUrls : RawRow :=
  { name := some "Max", ignore := some "yes", chair := some "no",
    committee := some "Board", github := some "not a url",
    linkedin := some "ftp://example.com/x", website := some "https://",
    twitter := some "@max", bluesky := some "bsky", mastodon := some "http://",
    image_url := some "example.com/max.png" }

def maxMember : TeamMember :=
  { name := "Max", role := "", committee := "Board", image_name := none }

def maxBag : TeamDataBag :=
  { team_images := "images", default_image := "default.png",
    types := [{ name := "Board", comment := "", members := [maxMember] }] }

/-- C6: a URL field value that does not parse as an HTTP(S) URL is cleared
to `None` by `validate_url` (for `image_url` too, already at construction,
before line 81 clears it unconditionally), and the record is still
included in the published document. -/
theorem c6_malformed_url_cleared (so : List String) (ti di : String)
    (imageDir : List String) (http : Http) (records : List RawRow)
    (e : List String) (r : RawRow) (bag : TeamDataBag)
    (hwf : ∀ x ∈ records, wfRow x) (hr : r ∈ records)
    (hacc : rowAccepted r = true) (hkey : rowKey r ∈ e)
    (hbag : createDatabag so ti di imageDir http records e = .ok bag) :
    (∀ v, r.github = some v → parseHttpUrl (pyStrip v) = none →
      (rowMember imageDir http r).github = none)
    ∧ (∀ v, r.linkedin = some v → parseHttpUrl (pyStrip v) = none →
      (rowMember imageDir http r).linkedin = none)
    ∧ (∀ v, r.website = some v → parseHttpUrl (pyStrip v) = none →
      (rowMember imageDir http r).website = none)
    ∧ (∀ v, r.twitter = some v → parseHttpUrl (pyStrip v) = none →
      (rowMember imageDir http r).twitter = none)
    ∧ (∀ v, r.bluesky = some v → parseHttpUrl (pyStrip v) = none →
      (rowMember imageDir http r).bluesky = none)
    ∧ (∀ v, r.mastodon = some v → parseHttpUrl (pyStrip v) = none →
      (rowMember imageDir http r).mastodon = none)
    ∧ (∀ v, r.image_url = some v → parseHttpUrl (pyStrip v) = none →
      (mkTeamMember (r.name.getD "") (rowRole (r.chair.getD "")) r).image_url = none)
    ∧ rowMember imageDir http r ∈ allMembers bag := by
  refine ⟨?_, ?_, ?_, ?_, ?_, ?_, ?_, ?_⟩
  · intro v hv hp
    simp [rowMember, finalizeMember, mkTeamMember, hv, validate_url_eq_none hp]
  · intro v hv hp
    simp [rowMember, finalizeMember, mkTeamMember, hv, validate_url_eq_none hp]
  · intro v hv hp
    simp [rowMember, finalizeMember, mkTeamMember, hv, validate_url_eq_none hp]
  · intro v hv hp
    simp [rowMember, finalizeMember, mkTeamMember, hv, validate_url_eq_none hp]
  · intro v hv hp
    simp [rowMember, finalizeMember, mkTeamMember, hv, validate_url_eq_none hp]
  · intro v hv hp
    simp [rowMember, finalizeMember, mkTeamMember, hv, validate_url_eq_none hp]
  · intro v hv hp
    simp [mkTeamMember, hv, validate_url_eq_none hp]
  · exact mem_allMembers_of_bucket hwf hkey
      (List.mem_map_of_mem _ (List.mem_filter.mpr ⟨hr, by simp [hacc]⟩)) hbag

/-- Closed instance of `c6_malformed_url_cleared` on a record whose seven
URL fields are all malformed: every URL field of the published member is
absent, and the member is published. -/
theorem c6_witness :
    (rowMember [] noNet rowBadUrls).github = none
    ∧ (rowMember [] noNet rowBadUrls).mastodon = none
    ∧ rowMember [] noNet rowBadUrls ∈ allMembers maxBag := by
  refine ⟨?_, ?_, ?_⟩
  · exact (c6_malformed_url_cleared ["Board"] "images" "default.png" [] noNet
      [rowBadUrls] ["Board"] rowBadUrls maxBag (by decide) (by decide)
      (by decide) (by decide) rfl).1 "not a url" rfl (by decide)
  · exact (c6_malformed_url_cleared ["Board"] "images" "default.png" [] noNet
      [rowBadUrls] ["Board"] rowBadUrls maxBag (by decide) (by decide)
      (by decide) (by decide) rfl).2.2.2.2.2.1 "http://" rfl (by decide)
  · exact (c6_malformed_url_cleared ["Board"] "images" "default.png" [] noNet
      [rowBadUrls] ["Board"] rowBadUrls maxBag (by decide) (by decide)
      (by decide) (by decide) rfl).2.2.2.2.2.2.2

def rowMax2 : RawRow :=
  { name := some "Ana Lima", ignore := some "yes", chair := some "no",
    committee := some "Board", image_url := some "https://example.com/ana.png" }

def anaMember : TeamMember :=
  { name := "Ana Lima", role := "", committee := "Board", image_name := none }

def anaBag : TeamDataBag :=
  { team_images := "images", default_image := "default.png",
    types := [{ name := "Board", comment := "", members := [anaMember] }] }

/-- C8: a failing image resolution is never fatal.  A probe whose content
type is not `image/...` makes `download` raise `ValueError`; a probe that
raises a network error makes `download` raise `ValueError` as well; both
escape `download_member_image` and are caught by the `except Exception` of
`create_databag`, so the batch still succeeds and the member is published
with `image_name = None`. -/
theorem c8_soft_failure (so : List String) (ti di : String)
    (imageDir : List String) (http : Http) (records : List RawRow)
    (e : List String) (r : RawRow)
    (hwf : ∀ x ∈ records, wfRow x) (hr : r ∈ records)
    (hacc : rowAccepted r = true) (hkey : rowKey r ∈ e)
    (hfail : ∀ s : String,
      downloadMemberImage imageDir http
        (mkTeamMember (r.name.getD "") (rowRole (r.chair.getD "")) r) ≠
          .ok (some s)) :
    (∀ (u : Url) (n : String) (resp : HttpResponse) (ct : String),
      u.host ≠ "drive.google.com" →
      http.head (urlToString u) = .ok resp → resp.statusOk = true →
      resp.contentType = some ct → strBeginsWith (pyStrip ct) "image/" = false →
      download http u n = .error (.valueError "URL does not point to a valid image"))
    ∧ (∀ (u : Url) (n : String), u.host ≠ "drive.google.com" →
      http.head (urlToString u) = .error () →
      download http u n = .error (.valueError "Failed to fetch URL headers"))
    ∧ ∃ bag, createDatabag so ti di imageDir http records e = .ok bag ∧
        rowMember imageDir http r ∈ allMembers bag ∧
        (rowMember imageDir http r).image_name = none := by
  have himg : resolveImage imageDir http
      (mkTeamMember (r.name.getD "") (rowRole (r.chair.getD "")) r) = none := by
    unfold resolveImage
    cases hd : downloadMemberImage imageDir http
        (mkTeamMember (r.name.getD "") (rowRole (r.chair.getD "")) r) with
    | ok v =>
      cases v with
      | none => rfl
      | some s => exact absurd hd (hfail s)
    | error err => rfl
  refine ⟨?_, ?_, ?_⟩
  · intro u n resp ct hhost hhead hsok hct hbegin
    simp [download, hhost, hhead, hsok, validateContentType, hct, hbegin]
  · intro u n hhost hhead
    simp [download, hhost, hhead]
  · refine ⟨_, createDatabag_eq_ok so ti di imageDir http records e hwf, ?_, ?_⟩
    · exact mem_allMembers_of_bucket hwf hkey
        (List.mem_map_of_mem _ (List.mem_filter.mpr ⟨hr, by simp [hacc]⟩))
        (createDatabag_eq_ok so ti di imageDir http records e hwf)
    · simp [rowMember, finalizeMember, himg]

/-- Closed instance of `c8_soft_failure`: `example.com/ana.png` serves
`text/html`, resolution fails, Ana is still published without an image. -/
theorem c8_witness :
    (∀ (u : Url) (n : String) (resp : HttpResponse) (ct : String),
      u.host ≠ "drive.google.com" →
      htmlNet.head (urlToString u) = .ok resp → resp.statusOk = true →
      resp.contentType = some ct → strBeginsWith (pyStrip ct) "image/" = false →
      download htmlNet u n = .error (.valueError "URL does not point to a valid image"))
    ∧ (∀ (u : Url) (n : String), u.host ≠ "drive.google.com" →
      htmlNet.head (urlToString u) = .error () →
      download htmlNet u n = .error (.valueError "Failed to fetch URL headers"))
    ∧ ∃ bag, createDatabag ["Board"] "images" "default.png" [] htmlNet [rowMax2]
        ["Board"] = .ok bag ∧
        rowMember [] htmlNet rowMax2 ∈ allMembers bag ∧
        (rowMember [] htmlNet rowMax2).image_name = none :=
  c8_soft_failure ["Board"] "images" "default.png" [] htmlNet [rowMax2] ["Board"]
    rowMax2 (by decide) (by decide) (by decide) (by decide)
    (fun s h => by
      rw [show downloadMemberImage [] htmlNet
        (mkTeamMember (rowMax2.name.getD "") (rowRole (rowMax2.chair.getD ""))
          rowMax2) = .error (.valueError "URL does not point to a valid image")
        from rfl] at h
      cases h)

def rowVolA : RawRow :=
  { name := some "Ann", ignore := some "yes", chair := some "no",
    committee := some "Volunteers" }

def rowOtherB : RawRow :=
  { name := some "Ben", ignore := some "yes", chair := some "no",
    committee := some "Outreach" }

/-- C1 counterexample.  After a first run pushed a commit to the feature
branch (branch head 1, `origin/main` still at 0) and with a perfectly
clean tree on the second run (no textual or file-level difference), the
second run still sets `changes_to_push`, invokes `git push` and runs the
pull-request check, because lines 195-203 compare the branch head against
`origin/main`, not against the previously committed content.  Moreover two
runs on identical records can serialize different documents when the
committee-set iteration order differs: both `["Volunteers", "Outreach"]`
and `["Outreach", "Volunteers"]` are valid enumerations of the same batch
and produce documents that are not equal. -/
theorem c1_counterexample :
    (applyChanges { dirty := false, localCommit := 1, remoteMainCommit := 0 } 2).committed
        = false
    ∧ (applyChanges { dirty := false, localCommit := 1, remoteMainCommit := 0 } 2).changes_to_push
        = true
    ∧ (applyChanges { dirty := false, localCommit := 1, remoteMainCommit := 0 } 2).pushInvoked
        = true
    ∧ prCheckInvoked (applyChanges { dirty := false, localCommit := 1, remoteMainCommit := 0 } 2)
        = true
    ∧ (["Volunteers", "Outreach"] : List String).Perm (committeeKeys [rowVolA, rowOtherB])
    ∧ (["Outreach", "Volunteers"] : List String).Perm (committeeKeys [rowVolA, rowOtherB])
    ∧ (createDatabag [] "images" "default.png" [] noNet [rowVolA, rowOtherB]
        ["Volunteers", "Outreach"]).toOption.map (fun b => b.types.map Committee.name)
        = some ["Volunteers", "Outreach"]
    ∧ (createDatabag [] "images" "default.png" [] noNet [rowVolA, rowOtherB]
        ["Outreach", "Volunteers"]).toOption.map (fun b => b.types.map Committee.name)
        = some ["Outreach", "Volunteers"] := by
  refine ⟨rfl, by decide, by decide, by decide, by decide, by decide, rfl, rfl⟩

/-- C1 amended: on a clean tree `apply_changes` creates no commit, and it
reports `changes_to_push = false` — skipping both `git push` and the
pull-request check — exactly when the checked-out branch head equals the
`origin/main` commit; otherwise it pushes and checks for a PR even though
no textual difference exists. -/
theorem c1_amended_publisher (s : RepoState) (newCommit : Nat)
    (h : s.dirty = false) :
    (applyChanges s newCommit).committed = false
    ∧ ((applyChanges s newCommit).changes_to_push = false ↔
        s.localCommit = s.remoteMainCommit)
    ∧ (applyChanges s newCommit).pushInvoked = (applyChanges s newCommit).changes_to_push
    ∧ prCheckInvoked (applyChanges s newCommit) = (applyChanges s newCommit).changes_to_push := by
  unfold applyChanges prCheckInvoked
  simp [h]

/-- Closed instance of `c1_amended_publisher` at a clean tree whose branch
head coincides with `origin/main`. -/
theorem c1_witness :
    (applyChanges { dirty := false, localCommit := 0, remoteMainCommit := 0 } 1).committed
        = false
    ∧ ((applyChanges { dirty := false, localCommit := 0, remoteMainCommit := 0 } 1).changes_to_push
        = false ↔ (0 : Nat) = 0)
    ∧ (applyChanges { dirty := false, localCommit := 0, remoteMainCommit := 0 } 1).pushInvoked
        = (applyChanges { dirty := false, localCommit := 0, remoteMainCommit := 0 } 1).changes_to_push
    ∧ prCheckInvoked (applyChanges { dirty := false, localCommit := 0, remoteMainCommit := 0 } 1)
        = (applyChanges { dirty := false, localCommit := 0, remoteMainCommit := 0 } 1).changes_to_push :=
  c1_amended_publisher { dirty := false, localCommit := 0, remoteMainCommit := 0 } 1 rfl

def rowBoardBob : RawRow :=
  { name := some "Bob", ignore := some "yes", chair := some "no",
    committee := some "Board" }

def rowAdaNoCommittee : RawRow :=
  { name := some "Ada", ignore := some "yes", chair := some "no" }

def bobMember : TeamMember :=
  { name := "Bob", role := "", committee := "Board", image_name := none }

def boardOnlyBag : TeamDataBag :=
  { team_images := "images", default_image := "default.png",
    types := [{ name := "Board", comment := "", members := [bobMember] }] }

/-- C2: evaluation at the failing input.  Ada's record has no committee
key, is accepted (`ignore = "yes"`), and `record.get("committee",
"other")` yields the fallback key `"other"` — but the `members` dictionary
only has the bucket `"Board"` (the set of non-empty committee values of
the batch), so `members["other"]` raises `KeyError`, the `except` on line
84 swallows it, and Ada is dropped from the output instead of landing in
the default committee group. -/
theorem c2_dropped_without_committee :
    rowAccepted rowAdaNoCommittee = true
    ∧ rowKey rowAdaNoCommittee = "other"
    ∧ committeeKeys [rowBoardBob, rowAdaNoCommittee] = ["Board"]
    ∧ createDatabag ["Board"] "images" "default.png" [] noNet
        [rowBoardBob, rowAdaNoCommittee] ["Board"] = .ok boardOnlyBag := by
  refine ⟨by decide, rfl, rfl, rfl⟩

def rowEmptyName : RawRow :=
  { name := some "", ignore := some "yes", chair := some "no",
    committee := some "Board" }

/-- C3 counterexample: a row whose `name` value is the empty string (the
`fillna("")` image of a blank cell) is NOT excluded — pydantic's `name:
str` accepts the empty string, so the published document contains a member
named `""`. -/
theorem c3_counterexample :
    (createDatabag ["Board"] "images" "default.png" [] noNet [rowEmptyName]
      ["Board"]).toOption.map
        (fun b => b.types.map (fun c => c.members.map TeamMember.name))
      = some [[""]] := rfl

/-- C3 amended: a row with an *empty* `name` value passes validation and is
published with `name = ""` (the schema does not enforce non-emptiness),
while a record dictionary *without* the `name` key makes the batch fail
with `KeyError("name")` at the progress-logging lookup on line 70, which
sits before the `try` block and therefore raises past the batch loop. -/
theorem c3_amended (so : List String) (ti di : String)
    (imageDir : List String) (http : Http) (records : List RawRow)
    (e : List String) (r : RawRow) (bag : TeamDataBag)
    (hwf : ∀ x ∈ records, wfRow x) (hr : r ∈ records)
    (hname : r.name = some "") (hacc : rowAccepted r = true)
    (hkey : rowKey r ∈ e)
    (hbag : createDatabag so ti di imageDir http records e = .ok bag) :
    ((rowMember imageDir http r).name = ""
      ∧ rowMember imageDir http r ∈ allMembers bag)
    ∧ ∀ (x : RawRow) (rs : List RawRow), x.name = none →
        createDatabag so ti di imageDir http (x :: rs) e =
          .error (.keyError "name") := by
  refine ⟨⟨?_, ?_⟩, ?_⟩
  · simp [rowMember, finalizeMember, mkTeamMember, hname]
  · exact mem_allMembers_of_bucket hwf hkey
      (List.mem_map_of_mem _ (List.mem_filter.mpr ⟨hr, by simp [hacc]⟩)) hbag
  · intro x rs hx
    simp [createDatabag, processRecords, hx]

def emptyNameMember : TeamMember :=
  { name := "", role := "", committee := "Board", image_name := none }

def emptyNameBag : TeamDataBag :=
  { team_images := "images", default_image := "default.png",
    types := [{ name := "Board", comment := "", members := [emptyNameMember] }] }

/-- Closed instance of `c3_amended`. -/
theorem c3_witness :
    ((rowMember [] noNet rowEmptyName).name = ""
      ∧ rowMember [] noNet rowEmptyName ∈ allMembers emptyNameBag)
    ∧ ∀ (x : RawRow) (rs : List RawRow), x.name = none →
        createDatabag ["Board"] "images" "default.png" [] noNet (x :: rs)
          ["Board"] = .error (.keyError "name") :=
  c3_amended ["Board"] "images" "default.png" [] noNet [rowEmptyName] ["Board"]
    rowEmptyName emptyNameBag (by decide) (by decide) rfl (by decide)
    (by decide) rfl

def rowEveEmptyCommittee : RawRow :=
  { name := some "Eve", ignore := some "yes", chair := some "yes",
    committee := some "" }

/-- C5 counterexample: Eve's `ignore` flag is affirmative, yet she does not
appear in the output document — her committee cell is blank, so the bucket
lookup key is `""`, which is never a key of the `members` dictionary (the
set comprehension keeps only truthy committee values), and the resulting
`KeyError` silently drops the row.  The claimed "included iff the ignore
flag is affirmative" equivalence is therefore false. -/
theorem c5_counterexample :
    rowAccepted rowEveEmptyCommittee = true
    ∧ committeeKeys [rowEveEmptyCommittee] = []
    ∧ createDatabag ["Board"] "images" "default.png" [] noNet
        [rowEveEmptyCommittee] [] =
      .ok { team_images := "images", default_image := "default.png", types := [] } := by
  refine ⟨by decide, rfl, rfl⟩

/-- C5 amended: a row is included in the output iff its `ignore` value
casefolds to `"yes"` AND its bucket key (the committee value when the key
is present, else `"other"`) is one of the batch's non-empty committee
values; each included row contributes exactly its own member, whose `role`
is `"Chair"` iff the row's chair value casefolds to `"yes"` and `""`
otherwise. -/
theorem c5_amended (so : List String) (ti di : String)
    (imageDir : List String) (http : Http) (records : List RawRow)
    (e : List String) (bag : TeamDataBag)
    (hwf : ∀ x ∈ records, wfRow x)
    (he : e.Perm (committeeKeys records))
    (hbag : createDatabag so ti di imageDir http records e = .ok bag) :
    (∀ r ∈ records, rowAccepted r = true → rowKey r ∈ committeeKeys records →
      rowMember imageDir http r ∈ allMembers bag)
    ∧ (∀ m ∈ allMembers bag, ∃ r ∈ records, rowAccepted r = true ∧
        rowKey r ∈ committeeKeys records ∧ m = rowMember imageDir http r ∧
        (m.role = "Chair" ↔ pyCasefold (r.chair.getD "") = "yes")) := by
  constructor
  · intro r hr hacc hkey
    exact mem_allMembers_of_bucket hwf (he.mem_iff.mpr hkey)
      (List.mem_map_of_mem _ (List.mem_filter.mpr ⟨hr, by simp [hacc]⟩)) hbag
  · intro m hm
    obtain ⟨r, hr, hacc, hkey, rfl⟩ := mem_records_of_mem_allMembers hwf hbag hm
    refine ⟨r, hr, hacc, he.mem_iff.mp hkey, rfl, ?_⟩
    unfold rowMember finalizeMember mkTeamMember rowRole
    by_cases hch : pyCasefold (r.chair.getD "") = "yes"
    · simp [hch]
    · simp [hch]

def rowFrank : RawRow :=
  { name := some "Frank", ignore := some "YES", chair := some "no",
    committee := some "Board" }

def frankMember : TeamMember :=
  { name := "Frank", role := "", committee := "Board", image_name := none }

def frankBag : TeamDataBag :=
  { team_images := "images", default_image := "default.png",
    types := [{ name := "Board", comment := "", members := [frankMember] }] }

/-- Closed instance of `c5_amended`. -/
theorem c5_witness :
    (∀ r ∈ [rowFrank], rowAccepted r = true →
      rowKey r ∈ committeeKeys [rowFrank] →
      rowMember [] noNet r ∈ allMembers frankBag)
    ∧ (∀ m ∈ allMembers frankBag, ∃ r ∈ [rowFrank], rowAccepted r = true ∧
        rowKey r ∈ committeeKeys [rowFrank] ∧ m = rowMember [] noNet r ∧
        (m.role = "Chair" ↔ pyCasefold (r.chair.getD "") = "yes")) :=
  c5_amended ["Board"] "images" "default.png" [] noNet [rowFrank] ["Board"]
    frankBag (by decide) (by decide) rfl

/-- C7 counterexample: the file `jane_doe.png` exists and contains the
normalized key `jane_doe` of member "Jane Doe", yet resolution does NOT
return it: the member's image URL also ends in `jane_doe.png`, so the
basename short-circuit on lines 114-117 returns Python `None` first and
the member is resolved to no image at all. -/
theorem c7_counterexample :
    strContains (pyCasefold "jane_doe.png") (normalizedMemberName "Jane Doe") = true
    ∧ downloadMemberImage ["jane_doe.png"] noNet
        { name := "Jane Doe",
          image_url := some { scheme := "https", host := "example.com",
                              path := "/jane_doe.png", query := "" } } = .ok none := by
  refine ⟨by decide, rfl⟩

/-- C7 amended: *provided* no existing file equals the URL's final path
segment, when some existing file's casefolded name contains the member's
normalized key as a substring, resolution returns such a casefolded file
name without consulting the network (the result is the same under every
network oracle). -/
theorem c7_amended (imageDir : List String) (http1 http2 : Http)
    (member : TeamMember) (u : Url)
    (hu : member.image_url = some u)
    (hbase : imageDir.contains (urlBasename u) = false)
    (hmatch : ∃ x ∈ imageDir,
      strContains (pyCasefold x) (normalizedMemberName member.name) = true) :
    ∃ y, downloadMemberImage imageDir http1 member = .ok (some y)
      ∧ downloadMemberImage imageDir http2 member = .ok (some y)
      ∧ ∃ x ∈ imageDir, pyCasefold x = y
          ∧ strContains y (normalizedMemberName member.name) = true := by
  obtain ⟨x, hx, hsx⟩ := hmatch
  have hbase' : urlBasename u ∉ imageDir := by simpa using hbase
  have hxin : pyCasefold x ∈ ((imageDir.map pyCasefold).dedup).filter
      (fun z => strContains z (normalizedMemberName member.name)) :=
    List.mem_filter.mpr ⟨List.mem_dedup.mpr (List.mem_map_of_mem _ hx), hsx⟩
  cases himg : ((imageDir.map pyCasefold).dedup).filter
      (fun z => strContains z (normalizedMemberName member.name)) with
  | nil =>
    rw [himg] at hxin
    cases hxin
  | cons y ys =>
    have hy : y ∈ ((imageDir.map pyCasefold).dedup).filter
        (fun z => strContains z (normalizedMemberName member.name)) :=
      himg ▸ List.mem_cons_self y ys
    have hy' := List.mem_filter.mp hy
    obtain ⟨x', hx', hpx'⟩ := List.mem_map.mp (List.mem_dedup.mp hy'.1)
    refine ⟨y, ?_, ?_, x', hx', hpx', hy'.2⟩
    · simp [downloadMemberImage, hu, hbase', himg]
    · simp [downloadMemberImage, hu, hbase', himg]

def janePhotoMember : TeamMember :=
  { name := "Jane Doe",
    image_url := some { scheme := "https", host := "example.com",
                        path := "/photo.jpg", query := "" } }

/-- Closed instance of `c7_amended`: with the existing file `jane_doe.png`
and an image URL whose basename is `photo.jpg`, resolution returns
`jane_doe.png` under the oracle that always fails and under the oracle
that always succeeds alike — no fetch is performed. -/
theorem c7_witness :
    ∃ y, downloadMemberImage ["jane_doe.png"] noNet janePhotoMember = .ok (some y)
      ∧ downloadMemberImage ["jane_doe.png"] okJpeg janePhotoMember = .ok (some y)
      ∧ ∃ x ∈ ["jane_doe.png"], pyCasefold x = y
          ∧ strContains y (normalizedMemberName janePhotoMember.name) = true :=
  c7_amended ["jane_doe.png"] noNet okJpeg janePhotoMember
    { scheme := "https", host := "example.com", path := "/photo.jpg", query := "" }
    rfl (by decide) ⟨"jane_doe.png", by decide, by decide⟩

def rowZeta : RawRow :=
  { name := some "Zoe", ignore := some "yes", chair := some "no",
    committee := some "Zeta" }

def rowAlpha : RawRow :=
  { name := some "Al", ignore := some "yes", chair := some "no",
    committee := some "Alpha" }

/-- C4 counterexample: the committees not in `sort_order` are emitted in
the iteration order of the committee-value set, not in first-encountered
row order.  Here the rows introduce `Zeta` before `Alpha` (first conjunct),
`["Alpha", "Zeta"]` is a legitimate iteration order of that two-element
set (second conjunct), and under it the output lists `Alpha` before
`Zeta`, contradicting the claimed first-encountered order. -/
theorem c4_counterexample :
    committeeKeys [rowZeta, rowAlpha] = ["Zeta", "Alpha"]
    ∧ (["Alpha", "Zeta"] : List String).Perm (committeeKeys [rowZeta, rowAlpha])
    ∧ (createDatabag ["Board"] "images" "default.png" [] noNet [rowZeta, rowAlpha]
        ["Alpha", "Zeta"]).toOption.map (fun b => b.types.map Committee.name)
        = some ["Alpha", "Zeta"] := by
  refine ⟨rfl, by decide, rfl⟩

def rowVolC : RawRow :=
  { name := some "Vera", ignore := some "yes", chair := some "no",
    committee := some "Volunteers" }

def rowOtherC : RawRow :=
  { name := some "Omar", ignore := some "yes", chair := some "no",
    committee := some "Other" }

def rowBoardC : RawRow :=
  { name := some "Bea", ignore := some "yes", chair := some "no",
    committee := some "Board" }

/-- C4 amended: committees named in `sort_order` are emitted first, in
`sort_order`-index order, and the remaining committees are appended
afterwards in the (unspecified) set-enumeration order of the distinct
committee values — not necessarily first-encountered row order.  The
`Board`/`Volunteers`/`Other` example nevertheless holds under *every*
enumeration of the set, because only one committee is unlisted. -/
theorem c4_amended :
    (∀ (so : List String) (cs : List Committee), ∃ front,
      sortCommittees so cs =
        front ++ cs.filter (fun c => ¬ so.contains c.name)
      ∧ (∀ c ∈ front, so.contains c.name = true)
      ∧ front.Pairwise (leIdx so))
    ∧ ∀ e : List String, e.Perm ["Volunteers", "Other", "Board"] →
        (createDatabag ["Board", "Volunteers"] "images" "default.png" [] noNet
          [rowVolC, rowOtherC, rowBoardC] e).toOption.map
            (fun b => b.types.map Committee.name)
          = some ["Board", "Volunteers", "Other"] := by
  constructor
  · intro so cs
    refine ⟨(cs.filter (fun c => so.contains c.name)).insertionSort (leIdx so),
      ?_, ?_, ?_⟩
    · rfl
    · intro c hc
      have hc' := (List.perm_insertionSort (leIdx so) _).mem_iff.mp hc
      exact (List.mem_filter.mp hc').2
    · exact List.sorted_insertionSort (leIdx so) _
  · intro e he
    have he' : e ∈ (["Volunteers", "Other", "Board"] : List String).permutations' :=
      List.mem_permutations'.mpr he
    have hperm : (["Volunteers", "Other", "Board"] : List String).permutations' =
        [["Volunteers", "Other", "Board"], ["Other", "Volunteers", "Board"],
         ["Other", "Board", "Volunteers"], ["Volunteers", "Board", "Other"],
         ["Board", "Volunteers", "Other"], ["Board", "Other", "Volunteers"]] := by
      decide
    rw [hperm] at he'
    simp only [List.mem_cons, List.not_mem_nil, or_false] at he'
    rcases he' with rfl | rfl | rfl | rfl | rfl | rfl <;> rfl

/-- Closed instance of `c4_amended`: the split of `sort_committees` on a
single unlisted committee, and the documented example at one concrete
enumeration. -/
theorem c4_witness :
    (∃ front, sortCommittees ["Board", "Volunteers"]
        [{ name := "Other", comment := "", members := [] }] =
        front ++ ([{ name := "Other", comment := "", members := [] }] : List Committee).filter
          (fun c => ¬ ["Board", "Volunteers"].contains c.name)
      ∧ (∀ c ∈ front, ["Board", "Volunteers"].contains c.name = true)
      ∧ front.Pairwise (leIdx ["Board", "Volunteers"]))
    ∧ (createDatabag ["Board", "Volunteers"] "images" "default.png" [] noNet
        [rowVolC, rowOtherC, rowBoardC] ["Other", "Board", "Volunteers"]).toOption.map
          (fun b => b.types.map Committee.name) = some ["Board", "Volunteers", "Other"] :=
  ⟨c4_amended.1 ["Board", "Volunteers"] [{ name := "Other", comment := "", members := [] }],
   c4_amended.2 ["Other", "Board", "Volunteers"] (by decide)⟩
